import Mathlib

/-! Context-scoped debug tracing (`boil/debug.go`).

A shallow embedding of the debug configuration of package `boil`:
the two package variables `DebugMode` and `DebugWriter`, the context
overrides `WithDebug` / `WithDebugWriter`, the resolvers `IsDebug` /
`DebugWriterFrom`, and the default `DebugFn`.

Go library behaviour the functions rely on is embedded alongside them:

* `context.WithValue` / `Context.Value` : a chain of key-value links, looked
  up from the innermost link outwards; an absent key yields the nil interface.
* the comma-ok type assertion `v, ok := x.(T)` : never panics, `ok` is false
  when `x` is the nil interface or has another dynamic type.
* `fmt.Fprintln(w, operand)` : one `Write` call on `w` carrying the formatted
  operand and a newline. Calling it with the nil interface as `w` panics, and
  a panic raised inside the writer's `Write` propagates to the caller, since
  neither `fmt` nor debug.go recovers. How each writer's `Write` ends is a
  parameter (`Sinks`).

The type `Context` holds the non-nil contexts, as package `context` requires of
its callers. Where panic-freedom itself is the subject, the lookups are also
given on `ContextArg`, the interface values a caller can pass, nil included.
-/

namespace Boil

/-- An `io.Writer` interface value: the nil interface, or a non-nil writer
identified by a handle. -/
inductive Writer where
  | nil : Writer
  | handle (id : Nat) : Writer
  deriving DecidableEq, Repr

/-- The handle of `os.Stdout`, the initial value of `DebugWriter`. -/
def Stdout : Writer := Writer.handle 1

/-- Modelled from the spec: the declarations of the context keys `ctxDebug` and
`ctxDebugWriter` are not part of debug.go. The spec's data model lists
`debug-enabled` and `debug-sink` as two separate optional keys of a context, so
they are two distinct constants here; `foreign n` stands for every key that is
neither of them (keys of other packages, other keys of this one). -/
inductive Key where
  | ctxDebug : Key
  | ctxDebugWriter : Key
  | foreign (n : Nat) : Key
  deriving DecidableEq, Repr

/-- A value of type `interface{}` as stored in a context: the nil interface, a
`bool`, a non-nil value whose dynamic type implements `io.Writer`, or a value
of some other dynamic type (neither `bool` nor an `io.Writer`). -/
inductive Any where
  | nil : Any
  | bool (b : Bool) : Any
  | writer (id : Nat) : Any
  | other (tag : Nat) : Any
  deriving DecidableEq, Repr

/-- Conversion of an `io.Writer` to `interface{}`, as happens when it is passed
as the `val` argument of `context.WithValue`: a nil writer becomes the nil
interface. -/
def Writer.toAny : Writer → Any
  | Writer.nil => Any.nil
  | Writer.handle id => Any.writer id

/-- A non-nil `context.Context`: the empty root context, or a `valueCtx` link
made by `context.WithValue`. -/
inductive Context where
  | background : Context
  | valueCtx (parent : Context) (key : Key) (val : Any) : Context
  deriving DecidableEq, Repr

/-- The method `ctx.Value(key)`: the value of the innermost link whose key
equals `key`, the nil interface when there is none. -/
def Context.Value : Context → Key → Any
  | Context.background, _ => Any.nil
  | Context.valueCtx parent key val, k => if key = k then val else parent.Value k

/-- The function `context.WithValue(parent, key, val)`. -/
def WithValue (parent : Context) (key : Key) (val : Any) : Context :=
  Context.valueCtx parent key val

/-- Whether some link of the chain stores a value under `key`. -/
def Context.carries : Context → Key → Bool
  | Context.background, _ => false
  | Context.valueCtx parent key _, k => decide (key = k) || parent.carries k

/-- The comma-ok assertion `x.(bool)`: the value and the `ok` flag. -/
def assertBool : Any → Bool × Bool
  | Any.bool b => (b, true)
  | _ => (false, false)

/-- The comma-ok assertion `x.(io.Writer)`: the value and the `ok` flag. -/
def assertWriter : Any → Writer × Bool
  | Any.writer id => (Writer.handle id, true)
  | _ => (Writer.nil, false)

/-- The package variables `DebugMode` and `DebugWriter`. -/
structure Globals where
  DebugMode : Bool
  DebugWriter : Writer
  deriving DecidableEq, Repr

/-- The package variables as initialised: `DebugMode = false`,
`DebugWriter = os.Stdout`. -/
def Globals.initial : Globals := ⟨false, Stdout⟩

/-- Go: `func WithDebug(ctx context.Context, debug bool) context.Context`. -/
def WithDebug (ctx : Context) (debug : Bool) : Context :=
  WithValue ctx Key.ctxDebug (Any.bool debug)

/-- Go: `func IsDebug(ctx context.Context) bool`. -/
def IsDebug (g : Globals) (ctx : Context) : Bool :=
  match assertBool (ctx.Value Key.ctxDebug) with
  | (debug, ok) => if ok then debug else g.DebugMode

/-- Go: `func WithDebugWriter(ctx context.Context, writer io.Writer) context.Context`. -/
def WithDebugWriter (ctx : Context) (writer : Writer) : Context :=
  WithValue ctx Key.ctxDebugWriter writer.toAny

/-- Go: `func DebugWriterFrom(ctx context.Context) io.Writer`. -/
def DebugWriterFrom (g : Globals) (ctx : Context) : Writer :=
  match assertWriter (ctx.Value Key.ctxDebugWriter) with
  | (writer, ok) => if ok then writer else g.DebugWriter

/-- One bound query argument (an element of `args []interface{}`), by the way
`fmt` prints it under the default verb: integers, strings, booleans, the nil
interface, and a value of any other type given by its printed form. -/
inductive Arg where
  | int (n : Int) : Arg
  | str (s : String) : Arg
  | bool (b : Bool) : Arg
  | nil : Arg
  | other (shown : String) : Arg
  deriving DecidableEq, Repr

/-- The default-verb rendering of one argument. -/
def Arg.format : Arg → String
  | Arg.int n => toString n
  | Arg.str s => s
  | Arg.bool b => if b then "true" else "false"
  | Arg.nil => "<nil>"
  | Arg.other shown => shown

/-- The default-verb rendering of the slice `args`: the elements separated by
single spaces, in square brackets. -/
def formatArgs (args : List Arg) : String :=
  "[" ++ " ".intercalate (args.map Arg.format) ++ "]"

/-- One call of `Write` on a non-nil writer in which the writer took the data. -/
structure WriteCall where
  writer : Nat
  data : String
  deriving DecidableEq, Repr

/-- What a run has done so far: the `Write` calls in which a writer took data,
in order, and whether the run has panicked. -/
structure Outcome where
  log : List WriteCall
  panicked : Bool
  deriving DecidableEq, Repr

/-- The outcome of a run that has done nothing yet. -/
def Outcome.start : Outcome := ⟨[], false⟩

/-- How one call of `Write` on a non-nil writer ends: it takes the data and
returns (whatever error value it returns is dropped by the caller), it panics
before taking any data (a nil pointer held in the interface, say), or it takes
the data and then panics. -/
inductive WriteEnd where
  | returns : WriteEnd
  | panicsBefore : WriteEnd
  | panicsAfter : WriteEnd
  deriving DecidableEq, Repr

/-- The behaviour of the writers of a run: how the call of `Write` on the
writer `id` ends, given the calls taken so far and the data passed. -/
abbrev Sinks := Nat → List WriteCall → String → WriteEnd

/-- Writers whose `Write` always returns. -/
def Sinks.reliable : Sinks := fun _ _ _ => WriteEnd.returns

/-- Writers of which `bad` panics in `Write` before taking data; the others
always return. -/
def Sinks.panicking (bad : Nat) : Sinks :=
  fun id _ _ => if id = bad then WriteEnd.panicsBefore else WriteEnd.returns

/-- Writers of which `bad` takes the data and then panics in `Write`; the
others always return. -/
def Sinks.panickingLate (bad : Nat) : Sinks :=
  fun id _ _ => if id = bad then WriteEnd.panicsAfter else WriteEnd.returns

/-- Go: `fmt.Fprintln(w, operand)` run after `before`, where `text` is the
operand as formatted: nothing happens after a panic; a nil `w` panics on the
method call; otherwise `Write` is called on `w` once, with the text and a
newline, and a panic of that call is the panic of `Fprintln`. -/
def Fprintln (sinks : Sinks) (w : Writer) (text : String) (before : Outcome) : Outcome :=
  if before.panicked then before
  else
    match w with
    | Writer.nil => ⟨before.log, true⟩
    | Writer.handle id =>
      match sinks id before.log (text ++ "\n") with
      | WriteEnd.returns => ⟨before.log ++ [⟨id, text ++ "\n"⟩], false⟩
      | WriteEnd.panicsBefore => ⟨before.log, true⟩
      | WriteEnd.panicsAfter => ⟨before.log ++ [⟨id, text ++ "\n"⟩], true⟩

/-- The default value of the variable `DebugFn`. -/
def DebugFn (sinks : Sinks) (g : Globals) (ctx : Context) (query : String)
    (args : List Arg) : Outcome :=
  if g.DebugMode then
    let writer := DebugWriterFrom g ctx
    Fprintln sinks writer (formatArgs args) (Fprintln sinks writer query Outcome.start)
  else Outcome.start

/-- A value of the interface type `context.Context` as a caller can pass it:
the nil interface, or a context. -/
inductive ContextArg where
  | nil : ContextArg
  | of (ctx : Context) : ContextArg
  deriving DecidableEq, Repr

/-- The method call `ctx.Value(key)` on an interface value; `none` stands for a
panic, which is what a method call on the nil interface does. -/
def ContextArg.Value : ContextArg → Key → Option Any
  | ContextArg.nil, _ => none
  | ContextArg.of ctx, k => some (ctx.Value k)

/-- Go: `func IsDebug(ctx context.Context) bool` as a call that may panic;
`none` stands for a panic. The function has no error result. -/
def Call.IsDebug (g : Globals) (ctx : ContextArg) : Option Bool :=
  match ctx.Value Key.ctxDebug with
  | none => none
  | some v =>
    match assertBool v with
    | (debug, ok) => if ok then some debug else some g.DebugMode

/-- Go: `func DebugWriterFrom(ctx context.Context) io.Writer` as a call that may
panic; `none` stands for a panic. The function has no error result. -/
def Call.DebugWriterFrom (g : Globals) (ctx : ContextArg) : Option Writer :=
  match ctx.Value Key.ctxDebugWriter with
  | none => none
  | some v =>
    match assertWriter v with
    | (writer, ok) => if ok then some writer else some g.DebugWriter

/-- One context object on the heap: the root, or a `valueCtx` holding a
reference to its parent. -/
inductive Node where
  | root : Node
  | value (parent : Nat) (key : Key) (val : Any) : Node
  deriving DecidableEq, Repr

/-- The program state seen by this file: the package variables and the context
objects allocated so far, newest first. A context reference is the number of
objects that existed when its object was allocated. -/
structure World where
  globals : Globals
  heap : List Node
  deriving DecidableEq, Repr

/-- The chain a reference denotes. A parent reference is resolved among the
objects older than the one holding it. -/
def deref : List Node → Nat → Context
  | [], _ => Context.background
  | node :: older, ref =>
    if ref = older.length then
      match node with
      | Node.root => Context.background
      | Node.value parent key val => Context.valueCtx (deref older parent) key val
    else deref older ref

/-- Go: `context.WithValue` on references: allocates one new object, touches no
existing one, and returns the reference to the new object. -/
def World.WithValue (s : World) (parent : Nat) (key : Key) (val : Any) : Nat × World :=
  (s.heap.length, ⟨s.globals, Node.value parent key val :: s.heap⟩)

/-- Go: `WithDebug` run in a program state. -/
def World.WithDebug (s : World) (ctx : Nat) (debug : Bool) : Nat × World :=
  s.WithValue ctx Key.ctxDebug (Any.bool debug)

/-- Go: `WithDebugWriter` run in a program state. -/
def World.WithDebugWriter (s : World) (ctx : Nat) (writer : Writer) : Nat × World :=
  s.WithValue ctx Key.ctxDebugWriter writer.toAny

/-- Go: `IsDebug` run in a program state. -/
def World.IsDebug (s : World) (ctx : Nat) : Bool :=
  Boil.IsDebug s.globals (deref s.heap ctx)

/-- Go: `DebugWriterFrom` run in a program state. -/
def World.DebugWriterFrom (s : World) (ctx : Nat) : Writer :=
  Boil.DebugWriterFrom s.globals (deref s.heap ctx)

/-! ## Lookup lemmas -/

theorem value_withValue_same (ctx : Context) (k : Key) (v : Any) :
    (WithValue ctx k v).Value k = v := by
  simp [WithValue, Context.Value]

theorem value_withValue_other (ctx : Context) (k k2 : Key) (v : Any) (h : k ≠ k2) :
    (WithValue ctx k v).Value k2 = ctx.Value k2 := by
  simp [WithValue, Context.Value, h]

theorem value_of_not_carries (ctx : Context) (k : Key) (h : ctx.carries k = false) :
    ctx.Value k = Any.nil := by
  induction ctx with
  | background => rfl
  | valueCtx parent key val ih =>
    simp only [Context.carries, Bool.or_eq_false_iff, decide_eq_false_iff_not] at h
    simp [Context.Value, h.1, ih h.2]

theorem deref_older (node : Node) (heap : List Node) (ref : Nat) (h : ref < heap.length) :
    deref (node :: heap) ref = deref heap ref := by
  simp [deref, Nat.ne_of_lt h]

theorem deref_new (heap : List Node) (parent : Nat) (k : Key) (v : Any) :
    deref (Node.value parent k v :: heap) heap.length
      = WithValue (deref heap parent) k v := by
  simp [deref, WithValue]

theorem isDebug_of_value_bool (g : Globals) (ctx : Context) (b : Bool)
    (h : ctx.Value Key.ctxDebug = Any.bool b) : IsDebug g ctx = b := by
  simp [IsDebug, h, assertBool]

theorem isDebug_of_value_not_bool (g : Globals) (ctx : Context)
    (h : ∀ b, ctx.Value Key.ctxDebug ≠ Any.bool b) : IsDebug g ctx = g.DebugMode := by
  unfold IsDebug
  cases hv : ctx.Value Key.ctxDebug with
  | bool b => exact absurd hv (h b)
  | nil => rfl
  | writer id => rfl
  | other tag => rfl

theorem debugWriterFrom_of_value_writer (g : Globals) (ctx : Context) (id : Nat)
    (h : ctx.Value Key.ctxDebugWriter = Any.writer id) :
    DebugWriterFrom g ctx = Writer.handle id := by
  simp [DebugWriterFrom, h, assertWriter]

theorem debugWriterFrom_of_value_not_writer (g : Globals) (ctx : Context)
    (h : ∀ id, ctx.Value Key.ctxDebugWriter ≠ Any.writer id) :
    DebugWriterFrom g ctx = g.DebugWriter := by
  unfold DebugWriterFrom
  cases hv : ctx.Value Key.ctxDebugWriter with
  | writer id => exact absurd hv (h id)
  | nil => rfl
  | bool b => rfl
  | other tag => rfl

theorem isDebug_congr (g : Globals) (c1 c2 : Context)
    (h : c1.Value Key.ctxDebug = c2.Value Key.ctxDebug) : IsDebug g c1 = IsDebug g c2 := by
  simp [IsDebug, h]

theorem debugWriterFrom_congr (g : Globals) (c1 c2 : Context)
    (h : c1.Value Key.ctxDebugWriter = c2.Value Key.ctxDebugWriter) :
    DebugWriterFrom g c1 = DebugWriterFrom g c2 := by
  simp [DebugWriterFrom, h]

/-- A derived reference denotes the context derived from what its parent
reference denotes. -/
theorem deref_withDebug (s : World) (ctx : Nat) (b : Bool) :
    deref (s.WithDebug ctx b).2.heap (s.WithDebug ctx b).1 = WithDebug (deref s.heap ctx) b := by
  simp [World.WithDebug, World.WithValue, WithDebug, deref_new]

/-- A derived reference denotes the context derived from what its parent
reference denotes. -/
theorem deref_withDebugWriter (s : World) (ctx : Nat) (w : Writer) :
    deref (s.WithDebugWriter ctx w).2.heap (s.WithDebugWriter ctx w).1
      = WithDebugWriter (deref s.heap ctx) w := by
  simp [World.WithDebugWriter, World.WithValue, WithDebugWriter, deref_new]

theorem call_isDebug_some (g : Globals) (ctx : Context) :
    Call.IsDebug g (ContextArg.of ctx) = some (IsDebug g ctx) := by
  simp only [Call.IsDebug, ContextArg.Value, IsDebug]
  rcases assertBool (ctx.Value Key.ctxDebug) with ⟨debug, ok⟩
  cases ok <;> rfl

theorem call_debugWriterFrom_some (g : Globals) (ctx : Context) :
    Call.DebugWriterFrom g (ContextArg.of ctx) = some (DebugWriterFrom g ctx) := by
  simp only [Call.DebugWriterFrom, ContextArg.Value, DebugWriterFrom]
  rcases assertWriter (ctx.Value Key.ctxDebugWriter) with ⟨writer, ok⟩
  cases ok <;> rfl

/-- A call of `Fprintln` adds no `Write` call on a writer other than its own. -/
theorem fprintln_log_mem (sinks : Sinks) (w : Writer) (text : String) (before : Outcome)
    (c : WriteCall) (h : c ∈ (Fprintln sinks w text before).log) :
    c ∈ before.log ∨ Writer.handle c.writer = w := by
  unfold Fprintln at h
  split at h
  · exact Or.inl h
  · cases w with
    | nil => exact Or.inl h
    | handle id =>
      simp only at h
      split at h
      · rcases List.mem_append.mp h with h1 | h1
        · exact Or.inl h1
        · simp only [List.mem_singleton] at h1
          exact Or.inr (by rw [h1])
      · exact Or.inl h
      · rcases List.mem_append.mp h with h1 | h1
        · exact Or.inl h1
        · simp only [List.mem_singleton] at h1
          exact Or.inr (by rw [h1])

/-- Every `Write` call of the default `DebugFn` is made on the resolved writer. -/
theorem debugFn_log_mem (sinks : Sinks) (g : Globals) (ctx : Context) (query : String)
    (args : List Arg) (c : WriteCall) (h : c ∈ (DebugFn sinks g ctx query args).log) :
    Writer.handle c.writer = DebugWriterFrom g ctx := by
  unfold DebugFn at h
  split at h
  · rcases fprintln_log_mem _ _ _ _ _ h with h1 | h1
    · rcases fprintln_log_mem _ _ _ _ _ h1 with h2 | h2
      · simp [Outcome.start] at h2
      · exact h2
    · exact h1
  · simp [Outcome.start] at h

/-! ## The claims -/

/-- C1 (the code departs from the claim): with `DebugMode = true` and a context
whose override switches debugging off, `IsDebug` is false, yet the default
`DebugFn` makes two `Write` calls on the resolved writer. -/
theorem debugFn_writes_although_context_disabled :
    IsDebug ⟨true, Stdout⟩ (WithDebug Context.background false) = false ∧
    DebugFn Sinks.reliable ⟨true, Stdout⟩ (WithDebug Context.background false)
        "DELETE FROM t" []
      = ⟨[⟨1, "DELETE FROM t\n"⟩, ⟨1, "[]\n"⟩], false⟩ := by
  decide

/-- C2 (the code departs from the claim): with `DebugMode = false` and a context
whose override switches debugging on, `IsDebug` is true, yet the default
`DebugFn` makes no `Write` call at all, whatever the writers would do. -/
theorem debugFn_silent_although_context_enabled (sinks : Sinks) :
    IsDebug ⟨false, Stdout⟩ (WithDebug Context.background true) = true ∧
    DebugFn sinks ⟨false, Stdout⟩ (WithDebug Context.background true) "SELECT $1"
        [Arg.int 42]
      = ⟨[], false⟩ :=
  ⟨by decide, rfl⟩

/-- C3: `IsDebug (WithDebug ctx b) = b` for every context, boolean and value of
the package variables; in particular an override of `false` wins over
`DebugMode = true`, and the innermost override wins over one already present. -/
theorem isDebug_withDebug (g : Globals) (ctx : Context) (b : Bool) :
    IsDebug g (WithDebug ctx b) = b ∧
    IsDebug ⟨true, g.DebugWriter⟩ (WithDebug ctx false) = false ∧
    ∀ earlier : Bool, IsDebug g (WithDebug (WithDebug ctx earlier) b) = b := by
  have key : ∀ (g0 : Globals) (c : Context) (b0 : Bool), IsDebug g0 (WithDebug c b0) = b0 :=
    fun g0 c b0 => isDebug_of_value_bool g0 _ b0 (value_withValue_same c _ _)
  exact ⟨key _ _ _, key _ _ _, fun _ => key _ _ _⟩

/-- C4: on a context with no value stored under `ctxDebug` anywhere in its
chain, `IsDebug` returns the current value of `DebugMode`. -/
theorem isDebug_without_override (g : Globals) (ctx : Context)
    (h : ctx.carries Key.ctxDebug = false) : IsDebug g ctx = g.DebugMode := by
  apply isDebug_of_value_not_bool
  intro b hb
  rw [value_of_not_carries ctx _ h] at hb
  cases hb

theorem isDebug_without_override_witness :
    (WithDebugWriter Context.background Stdout).carries Key.ctxDebug = false ∧
    IsDebug ⟨true, Stdout⟩ (WithDebugWriter Context.background Stdout) = true ∧
    IsDebug ⟨false, Stdout⟩ (WithDebugWriter Context.background Stdout) = false :=
  ⟨by decide, isDebug_without_override ⟨true, Stdout⟩ _ (by decide),
    isDebug_without_override ⟨false, Stdout⟩ _ (by decide)⟩

/-- C5 as stated fails: overriding with the nil writer on the initial package
variables resolves to `os.Stdout`, not to the nil writer that was passed. -/
theorem debugWriterFrom_nil_override_counterexample :
    DebugWriterFrom Globals.initial (WithDebugWriter Context.background Writer.nil) = Stdout ∧
    DebugWriterFrom Globals.initial (WithDebugWriter Context.background Writer.nil)
      ≠ Writer.nil := by
  decide

/-- C5 amended: for every non-nil writer `w`, `DebugWriterFrom (WithDebugWriter
ctx w) = w` whatever the package variable `DebugWriter` and whatever override
`ctx` already carries; for the nil writer the result is the package variable
`DebugWriter`. -/
theorem debugWriterFrom_withDebugWriter (g : Globals) (ctx : Context) :
    (∀ id : Nat, DebugWriterFrom g (WithDebugWriter ctx (Writer.handle id)) = Writer.handle id) ∧
    DebugWriterFrom g (WithDebugWriter ctx Writer.nil) = g.DebugWriter := by
  constructor
  · intro id
    exact debugWriterFrom_of_value_writer g _ id (value_withValue_same ctx _ _)
  · apply debugWriterFrom_of_value_not_writer
    intro id hid
    rw [WithDebugWriter, value_withValue_same] at hid
    cases hid

/-- C6: on a context with no value stored under `ctxDebugWriter` anywhere in its
chain, `DebugWriterFrom` returns the current value of `DebugWriter`. -/
theorem debugWriterFrom_without_override (g : Globals) (ctx : Context)
    (h : ctx.carries Key.ctxDebugWriter = false) : DebugWriterFrom g ctx = g.DebugWriter := by
  apply debugWriterFrom_of_value_not_writer
  intro id hid
  rw [value_of_not_carries ctx _ h] at hid
  cases hid

theorem debugWriterFrom_without_override_witness :
    (WithDebug Context.background true).carries Key.ctxDebugWriter = false ∧
    DebugWriterFrom ⟨false, Writer.handle 7⟩ (WithDebug Context.background true)
      = Writer.handle 7 :=
  ⟨by decide, debugWriterFrom_without_override ⟨false, Writer.handle 7⟩ _ (by decide)⟩

/-- C7: deriving contexts from a live context reference `ctx` with `WithDebug`
and then `WithDebugWriter` leaves what `IsDebug` and `DebugWriterFrom` return
for `ctx` as it was, after each derivation, and leaves the package variables
unchanged. -/
theorem derive_leaves_parent_and_globals (s : World) (ctx : Nat) (b : Bool) (w : Writer)
    (h : ctx < s.heap.length) :
    ((s.WithDebug ctx b).2.IsDebug ctx = s.IsDebug ctx ∧
      (s.WithDebug ctx b).2.DebugWriterFrom ctx = s.DebugWriterFrom ctx ∧
      (s.WithDebug ctx b).2.globals = s.globals) ∧
    (((s.WithDebug ctx b).2.WithDebugWriter ctx w).2.IsDebug ctx = s.IsDebug ctx ∧
      ((s.WithDebug ctx b).2.WithDebugWriter ctx w).2.DebugWriterFrom ctx
        = s.DebugWriterFrom ctx ∧
      ((s.WithDebug ctx b).2.WithDebugWriter ctx w).2.globals = s.globals) := by
  have h1 : deref (Node.value ctx Key.ctxDebug (Any.bool b) :: s.heap) ctx = deref s.heap ctx :=
    deref_older _ _ _ h
  have h2 : deref (Node.value ctx Key.ctxDebugWriter w.toAny ::
      Node.value ctx Key.ctxDebug (Any.bool b) :: s.heap) ctx = deref s.heap ctx := by
    rw [deref_older _ _ _ (by simp; omega), h1]
  simp only [World.WithDebug, World.WithDebugWriter, World.WithValue, World.IsDebug,
    World.DebugWriterFrom, h1, h2, and_self]

theorem derive_leaves_parent_and_globals_witness :
    (0 < (World.mk ⟨true, Stdout⟩ [Node.root]).heap.length) ∧
    ((((World.mk ⟨true, Stdout⟩ [Node.root]).WithDebug 0 false).2.IsDebug 0
        = (World.mk ⟨true, Stdout⟩ [Node.root]).IsDebug 0 ∧
      ((World.mk ⟨true, Stdout⟩ [Node.root]).WithDebug 0 false).2.DebugWriterFrom 0
        = (World.mk ⟨true, Stdout⟩ [Node.root]).DebugWriterFrom 0 ∧
      ((World.mk ⟨true, Stdout⟩ [Node.root]).WithDebug 0 false).2.globals
        = (World.mk ⟨true, Stdout⟩ [Node.root]).globals) ∧
    ((((World.mk ⟨true, Stdout⟩ [Node.root]).WithDebug 0 false).2.WithDebugWriter 0
          (Writer.handle 2)).2.IsDebug 0
        = (World.mk ⟨true, Stdout⟩ [Node.root]).IsDebug 0 ∧
      (((World.mk ⟨true, Stdout⟩ [Node.root]).WithDebug 0 false).2.WithDebugWriter 0
          (Writer.handle 2)).2.DebugWriterFrom 0
        = (World.mk ⟨true, Stdout⟩ [Node.root]).DebugWriterFrom 0 ∧
      (((World.mk ⟨true, Stdout⟩ [Node.root]).WithDebug 0 false).2.WithDebugWriter 0
          (Writer.handle 2)).2.globals
        = (World.mk ⟨true, Stdout⟩ [Node.root]).globals)) :=
  ⟨by decide,
    derive_leaves_parent_and_globals (World.mk ⟨true, Stdout⟩ [Node.root]) 0 false
      (Writer.handle 2) (by decide)⟩

/-- C8 as stated fails: called with the nil interface as context, `IsDebug` and
`DebugWriterFrom` both panic on the method call `ctx.Value`, so it is not true
that neither operation ever panics. -/
theorem lookups_panic_on_nil_context_counterexample :
    Call.IsDebug Globals.initial ContextArg.nil = none ∧
    Call.DebugWriterFrom Globals.initial ContextArg.nil = none := by
  decide

/-- C8 amended: on every non-nil context neither lookup panics, and neither has
an error result; when the value under `ctxDebug` is absent or not a `bool`,
`IsDebug` returns `DebugMode`, and when the value under `ctxDebugWriter` is
absent or not an `io.Writer`, `DebugWriterFrom` returns `DebugWriter`. -/
theorem lookups_fall_back (g : Globals) (ctx : Context) :
    (∃ b : Bool, Call.IsDebug g (ContextArg.of ctx) = some b) ∧
    (∃ w : Writer, Call.DebugWriterFrom g (ContextArg.of ctx) = some w) ∧
    ((∀ b : Bool, ctx.Value Key.ctxDebug ≠ Any.bool b) →
      Call.IsDebug g (ContextArg.of ctx) = some g.DebugMode) ∧
    ((∀ id : Nat, ctx.Value Key.ctxDebugWriter ≠ Any.writer id) →
      Call.DebugWriterFrom g (ContextArg.of ctx) = some g.DebugWriter) := by
  refine ⟨⟨_, call_isDebug_some g ctx⟩, ⟨_, call_debugWriterFrom_some g ctx⟩, ?_, ?_⟩
  · intro h
    rw [call_isDebug_some, isDebug_of_value_not_bool g ctx h]
  · intro h
    rw [call_debugWriterFrom_some, debugWriterFrom_of_value_not_writer g ctx h]

theorem lookups_fall_back_witness :
    (∀ b : Bool,
      (WithValue (WithValue (WithDebugWriter (WithDebug Context.background false)
        (Writer.handle 2)) Key.ctxDebug (Any.other 3)) Key.ctxDebugWriter
        (Any.bool true)).Value Key.ctxDebug ≠ Any.bool b) ∧
    Call.IsDebug ⟨true, Stdout⟩ (ContextArg.of
      (WithValue (WithValue (WithDebugWriter (WithDebug Context.background false)
        (Writer.handle 2)) Key.ctxDebug (Any.other 3)) Key.ctxDebugWriter
        (Any.bool true))) = some true ∧
    (∀ id : Nat,
      (WithValue (WithValue (WithDebugWriter (WithDebug Context.background false)
        (Writer.handle 2)) Key.ctxDebug (Any.other 3)) Key.ctxDebugWriter
        (Any.bool true)).Value Key.ctxDebugWriter ≠ Any.writer id) ∧
    Call.DebugWriterFrom ⟨true, Stdout⟩ (ContextArg.of
      (WithValue (WithValue (WithDebugWriter (WithDebug Context.background false)
        (Writer.handle 2)) Key.ctxDebug (Any.other 3)) Key.ctxDebugWriter
        (Any.bool true))) = some Stdout :=
  ⟨by decide,
    (lookups_fall_back ⟨true, Stdout⟩ _).2.2.1 (by decide),
    fun id => by simp [WithValue, Context.Value],
    (lookups_fall_back ⟨true, Stdout⟩ _).2.2.2
      (fun id => by simp [WithValue, Context.Value])⟩

/-- C9 as stated fails, with `DebugMode = true` throughout. With the package
variable `DebugWriter` nil, or with an override whose `Write` panics, the
default `DebugFn` panics and writes nothing, so it does not write although
`DebugMode` is true; with a writer that panics after taking the data it makes
one `Write` call, not two; and with an override equal to `DebugWriter` both
lines are written to the global `DebugWriter`. -/
theorem debugFn_counterexample :
    (DebugWriterFrom (Globals.mk true Writer.nil) Context.background = Writer.nil ∧
      DebugFn Sinks.reliable (Globals.mk true Writer.nil) Context.background "SELECT 1" []
        = ⟨[], true⟩ ∧
      ¬ ((DebugFn Sinks.reliable (Globals.mk true Writer.nil) Context.background
            "SELECT 1" []).log ≠ [] ↔
          (Globals.mk true Writer.nil).DebugMode = true)) ∧
    DebugFn (Sinks.panicking 2) ⟨true, Stdout⟩
        (WithDebugWriter Context.background (Writer.handle 2)) "SELECT 1" []
      = ⟨[], true⟩ ∧
    DebugFn (Sinks.panickingLate 2) ⟨true, Stdout⟩
        (WithDebugWriter Context.background (Writer.handle 2)) "SELECT 1" []
      = ⟨[⟨2, "SELECT 1\n"⟩], true⟩ ∧
    DebugFn Sinks.reliable ⟨true, Stdout⟩ (WithDebugWriter Context.background Stdout)
        "SELECT 1" []
      = ⟨[⟨1, "SELECT 1\n"⟩, ⟨1, "[]\n"⟩], false⟩ := by
  decide

/-- C9 amended: the default `DebugFn` behaves the same whatever `WithDebug`
override the context carries; it writes nothing when `DebugMode` is false; every
`Write` call it makes is on the resolved writer `DebugWriterFrom ctx`, so when
that writer is not the global `DebugWriter`, nothing is written to the global
`DebugWriter`. When the resolved writer is non-nil and its `Write` returns
without panicking, `DebugFn` writes if and only if `DebugMode` is true, and then
makes exactly two `Write` calls: the query and a newline, then the rendering of
the arguments and a newline. -/
theorem debugFn_gated_by_debugMode (sinks : Sinks) (g : Globals) (ctx : Context)
    (query : String) (args : List Arg) :
    (∀ b : Bool,
      DebugFn sinks g (WithDebug ctx b) query args = DebugFn sinks g ctx query args) ∧
    (g.DebugMode = false → DebugFn sinks g ctx query args = ⟨[], false⟩) ∧
    (∀ c ∈ (DebugFn sinks g ctx query args).log,
      Writer.handle c.writer = DebugWriterFrom g ctx) ∧
    (DebugWriterFrom g ctx ≠ g.DebugWriter →
      ∀ c ∈ (DebugFn sinks g ctx query args).log, Writer.handle c.writer ≠ g.DebugWriter) ∧
    (∀ id : Nat, DebugWriterFrom g ctx = Writer.handle id →
      (∀ (taken : List WriteCall) (data : String), sinks id taken data = WriteEnd.returns) →
      (((DebugFn sinks g ctx query args).log ≠ [] ↔ g.DebugMode = true) ∧
       (g.DebugMode = true → DebugFn sinks g ctx query args
          = ⟨[⟨id, query ++ "\n"⟩, ⟨id, formatArgs args ++ "\n"⟩], false⟩))) := by
  refine ⟨?_, ?_, ?_, ?_, ?_⟩
  · intro b
    have hw : DebugWriterFrom g (WithDebug ctx b) = DebugWriterFrom g ctx :=
      debugWriterFrom_congr g _ _ (value_withValue_other ctx _ _ _ (by decide))
    simp only [DebugFn, hw]
  · intro hm
    simp [DebugFn, hm, Outcome.start]
  · intro c hc
    exact debugFn_log_mem sinks g ctx query args c hc
  · intro hne c hc heq
    exact hne ((debugFn_log_mem sinks g ctx query args c hc).symm.trans heq)
  · intro id hid hret
    cases hm : g.DebugMode with
    | false => simp [DebugFn, hm, Outcome.start]
    | true => simp [DebugFn, hm, hid, Fprintln, Outcome.start, hret]

theorem debugFn_gated_by_debugMode_witness :
    DebugWriterFrom ⟨true, Stdout⟩
        (WithDebugWriter (WithDebug Context.background false) (Writer.handle 2))
      = Writer.handle 2 ∧
    DebugFn Sinks.reliable ⟨true, Stdout⟩
        (WithDebugWriter (WithDebug Context.background false) (Writer.handle 2)) "SELECT 1" []
      = ⟨[⟨2, "SELECT 1\n"⟩, ⟨2, "[]\n"⟩], false⟩ ∧
    (∀ c ∈ (DebugFn Sinks.reliable ⟨true, Stdout⟩
        (WithDebugWriter (WithDebug Context.background false) (Writer.handle 2))
        "SELECT 1" []).log, Writer.handle c.writer ≠ Stdout) ∧
    DebugFn Sinks.reliable ⟨false, Stdout⟩ Context.background "SELECT 1" [] = ⟨[], false⟩ :=
  ⟨by decide,
    ((debugFn_gated_by_debugMode Sinks.reliable ⟨true, Stdout⟩
        (WithDebugWriter (WithDebug Context.background false) (Writer.handle 2))
        "SELECT 1" []).2.2.2.2 2 (by decide) (fun _ _ => rfl)).2 rfl,
    (debugFn_gated_by_debugMode Sinks.reliable ⟨true, Stdout⟩
        (WithDebugWriter (WithDebug Context.background false) (Writer.handle 2))
        "SELECT 1" []).2.2.2.1 (by decide),
    (debugFn_gated_by_debugMode Sinks.reliable ⟨false, Stdout⟩ Context.background
        "SELECT 1" []).2.1 rfl⟩

/-- C10: the two overrides are independent. `WithDebug` does not change what
`DebugWriterFrom` returns, `WithDebugWriter` does not change what `IsDebug`
returns, and applying both in either order gives contexts on which `IsDebug`
and `DebugWriterFrom` agree. -/
theorem overrides_independent (g : Globals) (ctx : Context) (b : Bool) (w : Writer) :
    DebugWriterFrom g (WithDebug ctx b) = DebugWriterFrom g ctx ∧
    IsDebug g (WithDebugWriter ctx w) = IsDebug g ctx ∧
    IsDebug g (WithDebugWriter (WithDebug ctx b) w)
      = IsDebug g (WithDebug (WithDebugWriter ctx w) b) ∧
    DebugWriterFrom g (WithDebugWriter (WithDebug ctx b) w)
      = DebugWriterFrom g (WithDebug (WithDebugWriter ctx w) b) := by
  have hw : ∀ (c : Context) (b0 : Bool),
      (WithDebug c b0).Value Key.ctxDebugWriter = c.Value Key.ctxDebugWriter :=
    fun c b0 => value_withValue_other c _ _ _ (by decide)
  have hd : ∀ (c : Context) (w0 : Writer),
      (WithDebugWriter c w0).Value Key.ctxDebug = c.Value Key.ctxDebug :=
    fun c w0 => value_withValue_other c _ _ _ (by decide)
  refine ⟨debugWriterFrom_congr g _ _ (hw _ _), isDebug_congr g _ _ (hd _ _), ?_, ?_⟩
  · apply isDebug_congr
    rw [hd]
    simp [WithDebug, WithDebugWriter, value_withValue_same]
  · apply debugWriterFrom_congr
    rw [hw]
    simp [WithDebug, WithDebugWriter, value_withValue_same]

end Boil
